import Mathlib

/-!
Verification of the MapScraper program (src/scraper.py).

The program mirrors `map.png` image assets from GitHub repositories into a
local `Maps/` directory tree.  We give a shallow embedding of its core:

* the path model (Python `pathlib.Path` over slash-separated relative paths is
  modelled as a list of non-empty segments; `parent` is `dropLast`, `name` is
  the last segment, the root `Path(".")` is the empty list);
* the classification pass of `handle_github_repo` (lines 96-147): collect the
  directories that directly contain a file whose lowercased path ends in
  `map.png`, and resolve each such directory against its nearest ancestor in
  that set;
* the sync step of `handle_github_repo` (lines 149-162): compare the persisted
  fingerprint record (`.map_sha`, whitespace-stripped on read) with the remote
  sha and the existence of the destination file, and download on mismatch;
* `download_raw` (lines 66-86) with its 404 + auth + sha blob fallback;
* the orchestration of `handle_source` / the main loop, with transport
  failures split into `requests.HTTPError` (caught at line 92) and other
  network errors (not caught anywhere, hence aborting the run).

Python string primitives (`str.lower`, `str.endswith`, `str.strip`) and the
path split are modelled by explicit structurally recursive functions so that
every definition evaluates by kernel reduction.
-/

/-- ASCII model of Python `str.lower()`. -/
def lowerString (s : String) : String :=
  String.mk (s.data.map Char.toLower)

/-- Model of Python `str.endswith(sfx)`. -/
def endsWithStr (s sfx : String) : Bool :=
  sfx.data.isSuffixOf s.data

/-- The filter of scraper.py line 105: `path.lower().endswith("map.png")`. -/
def matchesSuffix (path : String) : Bool :=
  endsWithStr (lowerString path) "map.png"

/-- Split a list of characters at `/`, accumulating the current segment in
reverse. -/
def splitPathAux : List Char → List Char → List (List Char)
  | [], acc => [acc.reverse]
  | c :: cs, acc =>
    if c = '/' then acc.reverse :: splitPathAux cs [] else splitPathAux cs (c :: acc)

/-- Model of `pathlib.Path(s).parts` for a relative slash-separated path:
the non-empty segments of `s` split at `/`. -/
def pathParts (s : String) : List String :=
  ((splitPathAux s.data []).map String.mk).filter (fun seg => seg ≠ "")

/-- Model of `Path.name`: the last segment, `""` for the root `Path(".")`. -/
def dirName (d : List String) : String :=
  d.getLast?.getD ""

/-- Model of Python `str.strip()` (used on the fingerprint record at
scraper.py line 150). -/
def stripStr (s : String) : String :=
  String.mk (((s.data.dropWhile Char.isWhitespace).reverse.dropWhile Char.isWhitespace).reverse)

/-- One entry of the GitHub tree listing: the `type`, `path` and `sha` fields
consumed by `handle_github_repo` (the `sha` may be absent). -/
structure TreeEntry where
  typ : String
  path : String
  sha : Option String
deriving DecidableEq

/-- One element of `map_items` (scraper.py line 97): the tree entry, its path
segments and its containing directory (`map_dir`). -/
structure MapItem where
  entry : TreeEntry
  p : List String
  mapDir : List String
deriving DecidableEq

/-- The collection loop of scraper.py lines 100-111: keep blob entries whose
lowercased path ends with `map.png`, remembering path and parent directory. -/
def mapItems (tree : List TreeEntry) : List MapItem :=
  tree.filterMap fun item =>
    if item.typ = "blob" ∧ matchesSuffix item.path then
      some ⟨item, pathParts item.path, (pathParts item.path).dropLast⟩
    else none

/-- The set `map_dirs` of scraper.py line 98 (a list; only membership is
used). -/
def mapDirs (tree : List TreeEntry) : List (List String) :=
  (mapItems tree).map MapItem.mapDir

/-- The upward walk of scraper.py lines 115-129, with an explicit fuel
argument (the walk strictly shortens the path each step, so fuel
`cur.length` is exact): starting above `cur`, find the nearest ancestor
that is in `dirs`, together with its distance. -/
def findAncestorAux (dirs : List (List String)) : Nat → Nat → List String → Option (List String × Nat)
  | 0, _, _ => none
  | fuel + 1, steps, cur =>
    if cur = [] then none
    else
      let parent := cur.dropLast
      if parent ∈ dirs then some (parent, steps + 1)
      else findAncestorAux dirs fuel (steps + 1) parent

/-- Nearest ancestor of `d` (excluding `d` itself) in `dirs`, with its
distance in directory levels; `none` when the root is reached first. -/
def findAncestor (dirs : List (List String)) (d : List String) : Option (List String × Nat) :=
  findAncestorAux dirs d.length 0 d

/-- The classification of one matching entry, as derived at scraper.py
lines 131-147. -/
structure ClassifiedTarget where
  mapName : String
  variant : Option String
  srcPath : List String
  sha : Option String
  destDir : List String
deriving DecidableEq

/-- The output root: `OUT_DIR = Path("Maps")` (scraper.py line 19). -/
def OUT_DIR : List String := ["Maps"]

/-- The destination segments `keep_parts = [map_name] + ([variant] if variant else [])`
(scraper.py line 143); note Python truthiness drops an empty variant. -/
def keepParts (mapName : String) (variant : Option String) : List String :=
  [mapName] ++ (match variant with
    | some v => if v = "" then [] else [v]
    | none => [])

/-- The destination file `dest_file = dest_dir / "map.png"` (scraper.py line 146). -/
def ClassifiedTarget.destFile (t : ClassifiedTarget) : List String :=
  t.destDir ++ ["map.png"]

/-- The record path `sha_file = dest_dir / ".map_sha"` (scraper.py line 147). -/
def ClassifiedTarget.shaFile (t : ClassifiedTarget) : List String :=
  t.destDir ++ [".map_sha"]

/-- Classification policy of scraper.py lines 131-147 for one map item:
no ancestor in `dirs` means base map, a distance-1 ancestor means variant,
any deeper ancestor drops the entry. -/
def classifyItem (dirs : List (List String)) (mi : MapItem) : Option ClassifiedTarget :=
  match findAncestor dirs mi.mapDir with
  | none =>
    some { mapName := dirName mi.mapDir, variant := none, srcPath := mi.p,
           sha := mi.entry.sha,
           destDir := OUT_DIR ++ keepParts (dirName mi.mapDir) none }
  | some (anc, distance) =>
    if distance = 1 then
      some { mapName := dirName anc, variant := some (dirName mi.mapDir), srcPath := mi.p,
             sha := mi.entry.sha,
             destDir := OUT_DIR ++ keepParts (dirName anc) (some (dirName mi.mapDir)) }
    else none

/-- The whole classification pass of `handle_github_repo`: the sync step at
lines 149-162 acts exactly on the targets this produces, in this order. -/
def classify (tree : List TreeEntry) : List ClassifiedTarget :=
  (mapItems tree).filterMap (classifyItem (mapDirs tree))

/-- The local filesystem state the sync step reads and writes: the set of
files that exist (as destination paths) and the contents of the fingerprint
records (`.map_sha` files).  Records are kept as an association list whose
most recent write shadows older ones. -/
structure SyncState where
  files : List (List String)
  shas : List (List String × String)
deriving DecidableEq

/-- Read the fingerprint record at a path (`none` when no record exists,
modelling `sha_file.exists()` being false at scraper.py line 150). -/
def lookupSha : List (List String × String) → List String → Option String
  | [], _ => none
  | (k, v) :: rest, p => if k = p then some v else lookupSha rest p

/-- The per-target sync step of scraper.py lines 149-162.  `fetch` tells, for
a source path, whether `download_raw` succeeds or raises the caught
`requests.HTTPError`.  Returns the new filesystem state and whether a fetch
(network download) was performed. -/
def syncTarget (fetch : List String → Bool) (st : SyncState) (t : ClassifiedTarget) :
    SyncState × Bool :=
  if (lookupSha st.shas t.shaFile).map stripStr = t.sha ∧ t.destFile ∈ st.files then
    (st, false)
  else if fetch t.srcPath then
    ({ files := t.destFile :: st.files,
       shas := (t.shaFile, t.sha.getD "") :: st.shas }, true)
  else
    (st, true)

/-- The sync loop over all classified targets, in classification order;
returns the final state and the number of fetches performed. -/
def syncAll (fetch : List String → Bool) : SyncState → List ClassifiedTarget → SyncState × Nat
  | st, [] => (st, 0)
  | st, t :: ts =>
    let r := syncTarget fetch st t
    let rest := syncAll fetch r.1 ts
    (rest.1, (if r.2 then 1 else 0) + rest.2)

/-- Transport failures of the GitHub requests: `httpError` is
`requests.HTTPError` (raised by `raise_for_status` on a non-2xx response and
caught at scraper.py line 92), `networkError` is any other requests
exception (connection failure, timeout), which no handler catches. -/
inductive TransportFailure where
  | httpError
  | networkError
deriving DecidableEq

/-- The remote side of one repository as `handle_github_repo` consumes it:
the outcome of `get_default_branch` and, per branch, of `get_tree`. -/
structure RepoEnv where
  defaultBranch : Except TransportFailure String
  tree : String → Except TransportFailure (List TreeEntry)

/-- What happened to one repository: skipped on a caught error, or processed
with a number of downloads. -/
inductive RepoOutcome where
  | skipped
  | processed (downloads : Nat)
deriving DecidableEq

/-- Branch resolution `branch = branch_override or get_default_branch(repo)`
(scraper.py line 90): the override short-circuits the network call. -/
def resolveBranch (env : RepoEnv) (branchOverride : Option String) :
    Except TransportFailure String :=
  match branchOverride with
  | some b => Except.ok b
  | none => env.defaultBranch

/-- Model of `handle_github_repo` (scraper.py lines 88-162): resolve the branch and
tree — only `requests.HTTPError` is caught there (skip this repository),
any other transport failure propagates — then classify and sync. -/
def handle_github_repo (env : RepoEnv) (fetch : List String → Bool) (st : SyncState)
    (branchOverride : Option String) : Except TransportFailure (SyncState × RepoOutcome) :=
  match resolveBranch env branchOverride with
  | Except.error TransportFailure.httpError => Except.ok (st, RepoOutcome.skipped)
  | Except.error TransportFailure.networkError => Except.error TransportFailure.networkError
  | Except.ok branch =>
    match env.tree branch with
    | Except.error TransportFailure.httpError => Except.ok (st, RepoOutcome.skipped)
    | Except.error TransportFailure.networkError => Except.error TransportFailure.networkError
    | Except.ok tree =>
      let r := syncAll fetch st (classify tree)
      Except.ok (r.1, RepoOutcome.processed r.2)

/-- One configured source: the `repository` and `branch` fields of a
`sources.json` entry (both possibly absent). -/
structure Source where
  repository : Option String
  branch : Option String
deriving DecidableEq

/-- Model of `handle_source` (scraper.py lines 164-171): an absent or empty
`repository` is only warned about (`none` outcome, no effect), otherwise
`handle_github_repo` runs. -/
def handle_source (env : String → RepoEnv) (fetch : List String → Bool) (st : SyncState)
    (src : Source) : Except TransportFailure (SyncState × Option RepoOutcome) :=
  let repo := src.repository.getD ""
  if repo = "" then Except.ok (st, none)
  else
    match handle_github_repo (env repo) fetch st src.branch with
    | Except.error e => Except.error e
    | Except.ok (st1, o) => Except.ok (st1, some o)

/-- The main loop of scraper.py lines 173-178: process the sources in order;
an uncaught exception from any source aborts the whole run. -/
def runSources (env : String → RepoEnv) (fetch : List String → Bool) :
    SyncState → List Source → Except TransportFailure (SyncState × List (Option RepoOutcome))
  | st, [] => Except.ok (st, [])
  | st, src :: rest =>
    match handle_source env fetch st src with
    | Except.error e => Except.error e
    | Except.ok (st1, o) =>
      match runSources env fetch st1 rest with
      | Except.error e => Except.error e
      | Except.ok (st2, os) => Except.ok (st2, o :: os)

/-- The outcome of an HTTP request: a response with status code and body, or
a network error raised by the request itself. -/
inductive ReqResult where
  | resp (status : Nat) (content : String)
  | netErr
deriving DecidableEq

/-- An error propagating out of `download_raw`. -/
inductive DownloadError where
  | httpError (status : Nat)
  | netError
deriving DecidableEq

/-- What `download_raw` wrote to the destination: the raw response body, or
the (still base64-encoded) blob content fetched through the fallback, whose
decoding is done by the external `base64` library. -/
inductive Written where
  | raw (body : String)
  | blobEncoded (content : String)
deriving DecidableEq

/-- The check `Response.raise_for_status` raises `requests.HTTPError` exactly for 4xx
and 5xx status codes. -/
def raisesForStatus (status : Nat) : Bool :=
  400 ≤ status ∧ status < 600

/-- Python truthiness of the optional sha in the condition
`r.status_code == 404 and HEADERS and sha` (scraper.py line 71): true only
for a present, non-empty string. -/
def shaTruthy : Option String → Bool
  | none => false
  | some s => if s = "" then false else true

/-- Model of `download_raw` (scraper.py lines 66-86): the primary raw-content request,
with the blob fallback taken exactly when the primary returns 404, auth
headers are present (`HEADERS` is non-empty iff a token is set) and the sha
argument is truthy (present and non-empty).  Returns whether the fallback
was attempted, and the result. -/
def download_raw (hasAuth : Bool) (sha : Option String) (primary blob : ReqResult) :
    Bool × Except DownloadError Written :=
  match primary with
  | ReqResult.netErr => (false, Except.error DownloadError.netError)
  | ReqResult.resp status body =>
    if status = 404 ∧ hasAuth = true ∧ shaTruthy sha = true then
      match blob with
      | ReqResult.netErr => (true, Except.error DownloadError.netError)
      | ReqResult.resp bstatus bcontent =>
        if raisesForStatus bstatus then
          (true, Except.error (DownloadError.httpError bstatus))
        else
          (true, Except.ok (Written.blobEncoded bcontent))
    else
      if raisesForStatus status then
        (false, Except.error (DownloadError.httpError status))
      else
        (false, Except.ok (Written.raw body))

/-- The skip condition of scraper.py line 152 as a state predicate: the
record read (stripped) equals the remote sha and the destination file
exists. -/
def upToDate (st : SyncState) (t : ClassifiedTarget) : Prop :=
  (lookupSha st.shas t.shaFile).map stripStr = t.sha ∧ t.destFile ∈ st.files

/-- A target's remote sha is present and unchanged by stripping (true of
every real GitHub sha). -/
def goodSha (t : ClassifiedTarget) : Prop :=
  t.sha.isSome = true ∧ Option.map stripStr t.sha = t.sha

example : pathParts "world/night/map.png" = ["world", "night", "map.png"] := by decide
example : matchesSuffix "a/BaseMap.PNG" = true := by decide
example : download_raw true (some "") (ReqResult.resp 404 "nf") (ReqResult.resp 200 "enc") =
    (false, Except.error (DownloadError.httpError 404)) := rfl
example : findAncestor [["world"], ["world", "night"]] ["world", "night"] = some (["world"], 1) := by
  decide

/-- The example tree of spec section 8. -/
def exTree : List TreeEntry :=
  [⟨"blob", "world/map.png", some "shaA"⟩,
   ⟨"blob", "world/night/map.png", some "shaB"⟩,
   ⟨"blob", "world/night/extra/map.png", some "shaC"⟩]

/-- The map item of `world/night/extra/map.png` inside `exTree`. -/
def exItemExtra : MapItem :=
  ⟨⟨"blob", "world/night/extra/map.png", some "shaC"⟩,
   ["world", "night", "extra", "map.png"],
   ["world", "night", "extra"]⟩

/-- The map item of `world/map.png` inside `exTree`. -/
def exItemWorld : MapItem :=
  ⟨⟨"blob", "world/map.png", some "shaA"⟩,
   ["world", "map.png"],
   ["world"]⟩

/-- Two base maps in different parent folders that share the map name
`world`, hence the same destination directory `Maps/world`. -/
def dupTree : List TreeEntry :=
  [⟨"blob", "alpha/world/map.png", some "sha1"⟩,
   ⟨"blob", "beta/world/map.png", some "sha2"⟩]

/-- A tree whose second map directory has its nearest map-directory
ancestor two levels up. -/
def deepTree : List TreeEntry :=
  [⟨"blob", "a/map.png", some "s1"⟩,
   ⟨"blob", "a/b/c/map.png", some "s2"⟩]

/-- The map item of `a/b/c/map.png` inside `deepTree`. -/
def deepItem : MapItem :=
  ⟨⟨"blob", "a/b/c/map.png", some "s2"⟩,
   ["a", "b", "c", "map.png"],
   ["a", "b", "c"]⟩

theorem findAncestorAux_lt (dirs : List (List String)) :
    ∀ fuel steps cur a k, findAncestorAux dirs fuel steps cur = some (a, k) → steps < k := by
  intro fuel
  induction fuel with
  | zero =>
    intro steps cur a k h
    simp [findAncestorAux] at h
  | succ n ih =>
    intro steps cur a k h
    by_cases hc : cur = []
    · simp [findAncestorAux, hc] at h
    · simp only [findAncestorAux, if_neg hc] at h
      by_cases hm : cur.dropLast ∈ dirs
      · simp only [if_pos hm, Option.some.injEq, Prod.mk.injEq] at h
        omega
      · simp only [if_neg hm] at h
        have := ih _ _ _ _ h
        omega

theorem findAncestor_distance_one (dirs : List (List String)) (d : List String)
    (anc : List String) (h : findAncestor dirs d = some (anc, 1)) :
    anc = d.dropLast ∧ d ≠ [] := by
  rcases d with _ | ⟨x, xs⟩
  · simp [findAncestor, findAncestorAux] at h
  · unfold findAncestor at h
    simp only [List.length_cons] at h
    have hne : (x :: xs) ≠ [] := by simp
    simp only [findAncestorAux, if_neg hne] at h
    by_cases hm : (x :: xs).dropLast ∈ dirs
    · simp only [if_pos hm, Option.some.injEq, Prod.mk.injEq] at h
      exact ⟨h.1.symm, hne⟩
    · simp only [if_neg hm] at h
      have := findAncestorAux_lt dirs _ _ _ _ _ h
      omega

/-- C1: a matching entry whose map directory has its nearest ancestor in the
map-directory set at distance exactly 1 is classified with map name the last
segment of that parent directory and variant the last segment of the map
directory itself (and the resulting target is among the classifier's
output); the ancestor at distance 1 is the immediate parent. -/
theorem classify_variant_distance_one (tree : List TreeEntry) (mi : MapItem)
    (anc : List String) (hmem : mi ∈ mapItems tree)
    (hfind : findAncestor (mapDirs tree) mi.mapDir = some (anc, 1)) :
    anc = mi.mapDir.dropLast ∧
    ∃ t : ClassifiedTarget,
      classifyItem (mapDirs tree) mi = some t ∧ t ∈ classify tree ∧
      t.mapName = dirName anc ∧ t.variant = some (dirName mi.mapDir) := by
  refine ⟨(findAncestor_distance_one _ _ _ hfind).1, ?_⟩
  have h1 : classifyItem (mapDirs tree) mi =
      some { mapName := dirName anc, variant := some (dirName mi.mapDir), srcPath := mi.p,
             sha := mi.entry.sha,
             destDir := OUT_DIR ++ keepParts (dirName anc) (some (dirName mi.mapDir)) } := by
    unfold classifyItem
    rw [hfind]
    simp
  exact ⟨_, h1, List.mem_filterMap.mpr ⟨mi, hmem, h1⟩, rfl, rfl⟩

/-- Witness for C1 at the spec's example input: in `exTree`, the directory
`world/night/extra` is classified as map `night`, variant `extra`. -/
theorem classify_variant_distance_one_witness :
    ∃ t : ClassifiedTarget,
      classifyItem (mapDirs exTree) exItemExtra = some t ∧ t ∈ classify exTree ∧
      t.mapName = "night" ∧ t.variant = some "extra" := by
  obtain ⟨-, t, h1, h2, h3, h4⟩ :=
    classify_variant_distance_one exTree exItemExtra ["world", "night"]
      (by decide) (by decide)
  exact ⟨t, h1, h2, h3.trans (by decide), h4.trans (by decide)⟩

/-- C2: a matching entry whose map directory has no ancestor in the
map-directory set is classified as a base map: map name is the directory's
own last segment, no variant, destination `Maps/{mapName}/map.png`. -/
theorem classify_base_map (tree : List TreeEntry) (mi : MapItem)
    (hmem : mi ∈ mapItems tree)
    (hfind : findAncestor (mapDirs tree) mi.mapDir = none) :
    ∃ t : ClassifiedTarget,
      classifyItem (mapDirs tree) mi = some t ∧ t ∈ classify tree ∧
      t.mapName = dirName mi.mapDir ∧ t.variant = none ∧
      t.destFile = OUT_DIR ++ [dirName mi.mapDir, "map.png"] := by
  have h1 : classifyItem (mapDirs tree) mi =
      some { mapName := dirName mi.mapDir, variant := none, srcPath := mi.p,
             sha := mi.entry.sha,
             destDir := OUT_DIR ++ keepParts (dirName mi.mapDir) none } := by
    unfold classifyItem
    rw [hfind]
  refine ⟨_, h1, List.mem_filterMap.mpr ⟨mi, hmem, h1⟩, rfl, rfl, ?_⟩
  simp [ClassifiedTarget.destFile, keepParts]

/-- Witness for C2: in `exTree`, the directory `world` is a base map named
`world` with destination `Maps/world/map.png`. -/
theorem classify_base_map_witness :
    ∃ t : ClassifiedTarget,
      classifyItem (mapDirs exTree) exItemWorld = some t ∧ t ∈ classify exTree ∧
      t.mapName = "world" ∧ t.variant = none ∧
      t.destFile = ["Maps", "world", "map.png"] := by
  obtain ⟨t, h1, h2, h3, h4, h5⟩ :=
    classify_base_map exTree exItemWorld (by decide) (by decide)
  exact ⟨t, h1, h2, h3.trans (by decide), h4, h5.trans (by decide)⟩

/-- C3: a matching entry whose map directory's nearest ancestor in the
map-directory set lies two or more levels up produces no ClassifiedTarget:
`classifyItem` returns `none`, so the entry contributes nothing to the
classifier's output (and hence is never synced or downloaded). -/
theorem classify_drop_deep_nesting (tree : List TreeEntry) (mi : MapItem)
    (anc : List String) (dist : Nat) (_hmem : mi ∈ mapItems tree)
    (hfind : findAncestor (mapDirs tree) mi.mapDir = some (anc, dist))
    (hdist : 2 ≤ dist) :
    classifyItem (mapDirs tree) mi = none := by
  unfold classifyItem
  rw [hfind]
  have : ¬ dist = 1 := by omega
  simp [this]

/-- Witness for C3: in `deepTree`, the directory `a/b/c` (nearest map
ancestor `a` at distance 2) is dropped. -/
theorem classify_drop_deep_nesting_witness :
    classifyItem (mapDirs deepTree) deepItem = none :=
  classify_drop_deep_nesting deepTree deepItem ["a"] 2 (by decide) (by decide)
    (by decide)

/-- C4: the sync step performs no fetch exactly when the persisted
fingerprint record (as read: stripped, `none` when absent) equals the
target's remote fingerprint and the destination file exists; in particular a
deleted record with the destination file still present and a present remote
fingerprint forces a re-download. -/
theorem sync_skip_iff (fetch : List String → Bool) (st : SyncState) (t : ClassifiedTarget) :
    ((syncTarget fetch st t).2 = false ↔
      ((lookupSha st.shas t.shaFile).map stripStr = t.sha ∧ t.destFile ∈ st.files)) ∧
    (lookupSha st.shas t.shaFile = none → t.sha.isSome = true →
      (syncTarget fetch st t).2 = true) := by
  constructor
  · unfold syncTarget
    by_cases h : (lookupSha st.shas t.shaFile).map stripStr = t.sha ∧ t.destFile ∈ st.files
    · simp [h]
    · by_cases hf : fetch t.srcPath <;> simp [h, hf]
  · intro h1 h2
    have h3 : ¬ ((lookupSha st.shas t.shaFile).map stripStr = t.sha ∧ t.destFile ∈ st.files) := by
      rw [h1]
      cases hs : t.sha with
      | none => rw [hs] at h2; simp at h2
      | some s => simp [hs]
    unfold syncTarget
    by_cases hf : fetch t.srcPath <;> simp [h3, hf]

/-- Witness for C4 at a concrete state: record deleted, destination file
present, remote fingerprint present — the target is fetched again. -/
theorem sync_skip_iff_witness :
    (syncTarget (fun _ => true)
      ⟨[["Maps", "world", "map.png"]], []⟩
      { mapName := "world", variant := none, srcPath := ["world", "map.png"],
        sha := some "shaA", destDir := ["Maps", "world"] }).2 = true :=
  (sync_skip_iff (fun _ => true)
    ⟨[["Maps", "world", "map.png"]], []⟩
    { mapName := "world", variant := none, srcPath := ["world", "map.png"],
      sha := some "shaA", destDir := ["Maps", "world"] }).2 rfl rfl

/-- C7: the fingerprint record is only written after a successful download:
when the fetch fails (a caught `requests.HTTPError`), the whole filesystem
state — in particular the record — is unchanged; when a fetch is performed
and succeeds, the record at the target's record path holds the remote
fingerprint and the destination file exists. -/
theorem sha_record_only_after_success (fetch : List String → Bool) (st : SyncState)
    (t : ClassifiedTarget) :
    (fetch t.srcPath = false → (syncTarget fetch st t).1 = st) ∧
    ((syncTarget fetch st t).2 = true → fetch t.srcPath = true →
      lookupSha (syncTarget fetch st t).1.shas t.shaFile = some (t.sha.getD "") ∧
      t.destFile ∈ (syncTarget fetch st t).1.files) := by
  unfold syncTarget
  by_cases h : (lookupSha st.shas t.shaFile).map stripStr = t.sha ∧ t.destFile ∈ st.files
  · simp [h]
  · by_cases hf : fetch t.srcPath <;> simp [h, hf, lookupSha]

/-- Witness for C7: with a failing fetch, a state holding an old record is
left exactly as it was. -/
theorem sha_record_only_after_success_witness :
    (syncTarget (fun _ => false)
      ⟨[], [(["Maps", "world", ".map_sha"], "old")]⟩
      { mapName := "world", variant := none, srcPath := ["world", "map.png"],
        sha := some "shaA", destDir := ["Maps", "world"] }).1 =
      ⟨[], [(["Maps", "world", ".map_sha"], "old")]⟩ :=
  (sha_record_only_after_success (fun _ => false)
    ⟨[], [(["Maps", "world", ".map_sha"], "old")]⟩
    { mapName := "world", variant := none, srcPath := ["world", "map.png"],
      sha := some "shaA", destDir := ["Maps", "world"] }).1 rfl

/-- C10: for a target whose tree entry carries no fingerprint (`sha` absent):
with no record on disk and the destination file present the target is
skipped with no fetch (absent compares equal to absent), and whenever such a
target is downloaded the record is written as the empty string. -/
theorem absent_sha_sync_behavior (fetch : List String → Bool) (st : SyncState)
    (t : ClassifiedTarget) (hsha : t.sha = none) :
    (lookupSha st.shas t.shaFile = none → t.destFile ∈ st.files →
      syncTarget fetch st t = (st, false)) ∧
    ((syncTarget fetch st t).2 = true → fetch t.srcPath = true →
      lookupSha (syncTarget fetch st t).1.shas t.shaFile = some "") := by
  constructor
  · intro h1 h2
    unfold syncTarget
    rw [if_pos ⟨by rw [h1, hsha]; rfl, h2⟩]
  · intro hdid hf
    unfold syncTarget at hdid ⊢
    by_cases h : (lookupSha st.shas t.shaFile).map stripStr = t.sha ∧ t.destFile ∈ st.files
    · rw [if_pos h] at hdid
      simp at hdid
    · rw [if_neg h, if_pos hf]
      simp [lookupSha, hsha]

instance (st : SyncState) (t : ClassifiedTarget) : Decidable (upToDate st t) := by
  unfold upToDate
  infer_instance

instance (t : ClassifiedTarget) : Decidable (goodSha t) := by
  unfold goodSha
  infer_instance

theorem skip_of_upToDate (fetch : List String → Bool) (st : SyncState)
    (t : ClassifiedTarget) (h : upToDate st t) : syncTarget fetch st t = (st, false) := by
  unfold upToDate at h
  unfold syncTarget
  rw [if_pos h]

theorem upToDate_establish (fetch : List String → Bool) (st : SyncState)
    (t : ClassifiedTarget) (hf : fetch t.srcPath = true) (hs : goodSha t) :
    upToDate (syncTarget fetch st t).1 t := by
  obtain ⟨hsome, hstrip⟩ := hs
  unfold syncTarget
  by_cases h : (lookupSha st.shas t.shaFile).map stripStr = t.sha ∧ t.destFile ∈ st.files
  · rw [if_pos h]
    exact h
  · rw [if_neg h, if_pos hf]
    cases hsha : t.sha with
    | none => rw [hsha] at hsome; simp at hsome
    | some s =>
      rw [hsha] at hstrip
      constructor
      · simp only [lookupSha, if_pos rfl, Option.map_some', hsha]
        simpa using hstrip
      · exact List.mem_cons_self _ _

theorem shaFile_ne_of_destDir_ne (t t2 : ClassifiedTarget)
    (hne : t2.destDir ≠ t.destDir) : t2.shaFile ≠ t.shaFile := by
  intro hc
  exact hne (List.append_cancel_right hc)

theorem upToDate_preserve (fetch : List String → Bool) (st : SyncState)
    (t t2 : ClassifiedTarget) (hne : t2.destDir ≠ t.destDir) (h : upToDate st t) :
    upToDate (syncTarget fetch st t2).1 t := by
  have hsha := shaFile_ne_of_destDir_ne t t2 hne
  unfold syncTarget
  by_cases hskip : (lookupSha st.shas t2.shaFile).map stripStr = t2.sha ∧ t2.destFile ∈ st.files
  · rw [if_pos hskip]
    exact h
  · rw [if_neg hskip]
    by_cases hf : fetch t2.srcPath
    · rw [if_pos hf]
      refine ⟨?_, List.mem_cons_of_mem _ h.2⟩
      simp only [lookupSha, if_neg hsha]
      exact h.1
    · rw [if_neg hf]
      exact h

theorem syncAll_preserve (fetch : List String → Bool) (t : ClassifiedTarget) :
    ∀ (ts : List ClassifiedTarget) (st : SyncState),
      (∀ t2 ∈ ts, t2.destDir ≠ t.destDir) → upToDate st t →
      upToDate (syncAll fetch st ts).1 t := by
  intro ts
  induction ts with
  | nil => intro st _ h; exact h
  | cons t2 rest ih =>
    intro st hne h
    simp only [syncAll]
    exact ih (syncTarget fetch st t2).1
      (fun x hx => hne x (List.mem_cons_of_mem _ hx))
      (upToDate_preserve fetch st t t2 (hne t2 (List.mem_cons_self _ _)) h)

theorem syncAll_establishes (fetch : List String → Bool) :
    ∀ (ts : List ClassifiedTarget) (st : SyncState),
      (∀ t ∈ ts, fetch t.srcPath = true) → (∀ t ∈ ts, goodSha t) →
      ts.Pairwise (fun a b => a.destDir ≠ b.destDir) →
      ∀ t ∈ ts, upToDate (syncAll fetch st ts).1 t := by
  intro ts
  induction ts with
  | nil => intro st _ _ _ t ht; simp at ht
  | cons t2 rest ih =>
    intro st hok hsha hdist t ht
    rcases List.mem_cons.mp ht with rfl | hmem
    · simp only [syncAll]
      apply syncAll_preserve
      · intro x hx
        exact ((List.pairwise_cons.mp hdist).1 x hx).symm
      · exact upToDate_establish fetch st t (hok t (List.mem_cons_self _ _))
          (hsha t (List.mem_cons_self _ _))
    · simp only [syncAll]
      exact ih (syncTarget fetch st t2).1
        (fun x hx => hok x (List.mem_cons_of_mem _ hx))
        (fun x hx => hsha x (List.mem_cons_of_mem _ hx))
        (List.pairwise_cons.mp hdist).2 t hmem

theorem syncAll_skips (fetch : List String → Bool) :
    ∀ (ts : List ClassifiedTarget) (st : SyncState),
      (∀ t ∈ ts, upToDate st t) → syncAll fetch st ts = (st, 0) := by
  intro ts
  induction ts with
  | nil => intro st _; rfl
  | cons t rest ih =>
    intro st h
    have hskip := skip_of_upToDate fetch st t (h t (List.mem_cons_self _ _))
    simp only [syncAll, hskip]
    rw [ih st (fun x hx => h x (List.mem_cons_of_mem _ hx))]
    simp

/-- C5 (amended): running sync twice over the classification of the same
tree, with all first-run downloads succeeding, performs zero downloads on
the second run — provided the classified targets have pairwise-distinct
destination directories and every target's fingerprint is present and
unchanged by whitespace stripping. -/
theorem sync_idempotent_amended (fetch : List String → Bool) (st : SyncState)
    (tree : List TreeEntry)
    (hok : ∀ t ∈ classify tree, fetch t.srcPath = true)
    (hsha : ∀ t ∈ classify tree, goodSha t)
    (hdist : (classify tree).Pairwise (fun a b => a.destDir ≠ b.destDir)) :
    (syncAll fetch (syncAll fetch st (classify tree)).1 (classify tree)).2 = 0 := by
  rw [syncAll_skips fetch (classify tree) (syncAll fetch st (classify tree)).1
    (syncAll_establishes fetch (classify tree) st hok hsha hdist)]


/-- Witness for the amended C5: on the spec's example tree the second sync
run performs zero downloads. -/
theorem sync_idempotent_amended_witness :
    (syncAll (fun _ => true)
      (syncAll (fun _ => true) ⟨[], []⟩ (classify exTree)).1 (classify exTree)).2 = 0 :=
  sync_idempotent_amended (fun _ => true) ⟨[], []⟩ exTree (by decide) (by decide)
    (by decide)

/-- Counterexample to C5 as stated: in `dupTree` the two matching entries
(`alpha/world/map.png` and `beta/world/map.png`, different fingerprints) are
both base maps named `world`, so they share destination `Maps/world`; each
run's second target overwrites the record the first wrote, and the second
run downloads both again instead of performing zero downloads. -/
theorem sync_idempotence_counterexample :
    (syncAll (fun _ => true)
      (syncAll (fun _ => true) ⟨[], []⟩ (classify dupTree)).1 (classify dupTree)).2 ≠ 0 := by
  decide

/-- Witness for C10: a no-fingerprint target with the destination file on
disk and no record is skipped without a fetch. -/
theorem absent_sha_sync_behavior_witness :
    syncTarget (fun _ => true)
      ⟨[["Maps", "world", "map.png"]], []⟩
      { mapName := "world", variant := none, srcPath := ["world", "map.png"],
        sha := none, destDir := ["Maps", "world"] } =
      (⟨[["Maps", "world", "map.png"]], []⟩, false) :=
  (absent_sha_sync_behavior (fun _ => true)
    ⟨[["Maps", "world", "map.png"]], []⟩
    { mapName := "world", variant := none, srcPath := ["world", "map.png"],
      sha := none, destDir := ["Maps", "world"] } rfl).1 rfl (by decide)

/-- An environment in which the first repository's lookups fail with a
network (non-HTTP) error while every other repository is healthy and has an
empty tree. -/
def mixedEnv : String → RepoEnv := fun repo =>
  if repo = "repo1" then
    { defaultBranch := Except.error TransportFailure.networkError,
      tree := fun _ => Except.error TransportFailure.networkError }
  else
    { defaultBranch := Except.ok "main", tree := fun _ => Except.ok [] }

theorem runSources_cons (env : String → RepoEnv) (fetch : List String → Bool)
    (st : SyncState) (src : Source) (rest : List Source) :
    runSources env fetch st (src :: rest) =
      match handle_source env fetch st src with
      | Except.error e => Except.error e
      | Except.ok (st1, o) =>
        match runSources env fetch st1 rest with
        | Except.error e => Except.error e
        | Except.ok (st2, os) => Except.ok (st2, o :: os) := rfl

/-- Counterexample to C6 as stated: only `requests.HTTPError` is caught in
`handle_github_repo`, so a network (connection) error during branch
resolution aborts the whole run — the second, healthy repository of
`mixedEnv` is never processed, instead of being reached after skipping the
first. -/
theorem network_error_aborts_run :
    runSources mixedEnv (fun _ => true) ⟨[], []⟩
      [⟨some "repo1", none⟩, ⟨some "repo2", none⟩] =
      Except.error TransportFailure.networkError := rfl

/-- C6 (amended): an HTTP error response (non-2xx, surfacing as the caught
`requests.HTTPError`) during branch resolution or tree listing causes only
that repository to be skipped — state unchanged, outcome `skipped` — and
the run continues with the remaining sources; other transport failures are
not caught. -/
theorem http_error_skips_repo (env : String → RepoEnv) (fetch : List String → Bool)
    (st : SyncState) (src : Source) (rest : List Source) (repo : String)
    (hrepo : src.repository = some repo) (hne : repo ≠ "")
    (hfail : resolveBranch (env repo) src.branch = Except.error TransportFailure.httpError ∨
      ∃ b, resolveBranch (env repo) src.branch = Except.ok b ∧
        (env repo).tree b = Except.error TransportFailure.httpError) :
    handle_source env fetch st src = Except.ok (st, some RepoOutcome.skipped) ∧
    runSources env fetch st (src :: rest) =
      (runSources env fetch st rest).map (fun r => (r.1, some RepoOutcome.skipped :: r.2)) := by
  have h1 : handle_source env fetch st src = Except.ok (st, some RepoOutcome.skipped) := by
    unfold handle_source
    rw [hrepo]
    simp only [Option.getD_some]
    rw [if_neg hne]
    unfold handle_github_repo
    rcases hfail with hb | ⟨b, hb, ht⟩
    · rw [hb]
    · rw [hb]
      dsimp only
      rw [ht]
  refine ⟨h1, ?_⟩
  rw [runSources_cons, h1]
  dsimp only
  cases hrest : runSources env fetch st rest with
  | error e => rfl
  | ok r => rfl

/-- Witness for the amended C6: a source whose default-branch lookup returns
an HTTP error is skipped and the (empty) remainder of the run proceeds. -/
theorem http_error_skips_repo_witness :
    handle_source
        (fun _ => { defaultBranch := Except.error TransportFailure.httpError,
                    tree := fun _ => Except.ok [] })
        (fun _ => true) ⟨[], []⟩ ⟨some "r1", none⟩ =
      Except.ok (⟨[], []⟩, some RepoOutcome.skipped) ∧
    runSources
        (fun _ => { defaultBranch := Except.error TransportFailure.httpError,
                    tree := fun _ => Except.ok [] })
        (fun _ => true) ⟨[], []⟩ [⟨some "r1", none⟩] =
      (runSources
        (fun _ => { defaultBranch := Except.error TransportFailure.httpError,
                    tree := fun _ => Except.ok [] })
        (fun _ => true) ⟨[], []⟩ []).map
          (fun r => (r.1, some RepoOutcome.skipped :: r.2)) :=
  http_error_skips_repo
    (fun _ => { defaultBranch := Except.error TransportFailure.httpError,
                tree := fun _ => Except.ok [] })
    (fun _ => true) ⟨[], []⟩ ⟨some "r1", none⟩ [] "r1" rfl (by decide) (Or.inl rfl)

/-- C9: a source whose `repository` field is absent or empty is only warned
about: the filesystem state is returned unchanged and no repository
processing happens (the conclusion holds for every environment and fetch
oracle, so no network request is consulted), and the run continues with the
remaining sources. -/
theorem empty_repository_source_skipped (env : String → RepoEnv)
    (fetch : List String → Bool) (st : SyncState) (src : Source) (rest : List Source)
    (h : src.repository = none ∨ src.repository = some "") :
    handle_source env fetch st src = Except.ok (st, none) ∧
    runSources env fetch st (src :: rest) =
      (runSources env fetch st rest).map (fun r => (r.1, none :: r.2)) := by
  have h1 : handle_source env fetch st src = Except.ok (st, none) := by
    unfold handle_source
    rcases h with h | h <;> rw [h] <;> rfl
  refine ⟨h1, ?_⟩
  rw [runSources_cons, h1]
  dsimp only
  cases hrest : runSources env fetch st rest with
  | error e => rfl
  | ok r => rfl

/-- Witness for C9: a source with an empty repository string leaves the
state unchanged and the run continues. -/
theorem empty_repository_source_skipped_witness :
    handle_source mixedEnv (fun _ => true) ⟨[], []⟩ ⟨some "", none⟩ =
      Except.ok (⟨[], []⟩, none) ∧
    runSources mixedEnv (fun _ => true) ⟨[], []⟩ [⟨some "", none⟩] =
      (runSources mixedEnv (fun _ => true) ⟨[], []⟩ []).map
        (fun r => (r.1, none :: r.2)) :=
  empty_repository_source_skipped mixedEnv (fun _ => true) ⟨[], []⟩ ⟨some "", none⟩ []
    (Or.inr rfl)

/-- C8: `download_raw` attempts the blob-by-sha fallback exactly when the
primary raw request returns 404 AND auth headers are present AND a usable
fingerprint reference is available — Python truthiness at scraper.py line
71, so the sha must be present and non-empty; a network error of the
primary, a non-fallback 4xx/5xx primary response, and any failure of the
fallback itself (network error or 4xx/5xx blob response) all propagate as
errors to the caller. -/
theorem download_raw_fallback_iff (hasAuth : Bool) (sha : Option String)
    (primary blob : ReqResult) :
    ((download_raw hasAuth sha primary blob).1 = true ↔
      ((∃ body, primary = ReqResult.resp 404 body) ∧ hasAuth = true ∧ shaTruthy sha = true)) ∧
    (primary = ReqResult.netErr →
      (download_raw hasAuth sha primary blob).2 = Except.error DownloadError.netError) ∧
    (∀ status body, primary = ReqResult.resp status body →
      ¬ (status = 404 ∧ hasAuth = true ∧ shaTruthy sha = true) → raisesForStatus status = true →
      (download_raw hasAuth sha primary blob).2 =
        Except.error (DownloadError.httpError status)) ∧
    (∀ body, primary = ReqResult.resp 404 body → hasAuth = true → shaTruthy sha = true →
      blob = ReqResult.netErr →
      (download_raw hasAuth sha primary blob).2 = Except.error DownloadError.netError) ∧
    (∀ body bstatus bcontent, primary = ReqResult.resp 404 body → hasAuth = true →
      shaTruthy sha = true → blob = ReqResult.resp bstatus bcontent →
      raisesForStatus bstatus = true →
      (download_raw hasAuth sha primary blob).2 =
        Except.error (DownloadError.httpError bstatus)) := by
  refine ⟨?_, ?_, ?_, ?_, ?_⟩
  · constructor
    · intro h
      cases primary with
      | netErr => simp [download_raw] at h
      | resp status body =>
        by_cases hc : status = 404 ∧ hasAuth = true ∧ shaTruthy sha = true
        · exact ⟨⟨body, by rw [hc.1]⟩, hc.2⟩
        · exfalso
          unfold download_raw at h
          dsimp only at h
          rw [if_neg hc] at h
          by_cases hs : raisesForStatus status = true <;> simp [hs] at h
    · rintro ⟨⟨body, hp⟩, hauth, hsha⟩
      subst hp
      unfold download_raw
      dsimp only
      rw [if_pos ⟨rfl, hauth, hsha⟩]
      cases blob with
      | netErr => rfl
      | resp bstatus bcontent =>
        by_cases hs : raisesForStatus bstatus = true <;> simp [hs]
  · intro hp
    subst hp
    rfl
  · intro status body hp hc hs
    subst hp
    unfold download_raw
    dsimp only
    rw [if_neg hc, if_pos hs]
  · intro body hp hauth hsha hb
    subst hp
    subst hb
    unfold download_raw
    dsimp only
    rw [if_pos ⟨rfl, hauth, hsha⟩]
  · intro body bstatus bcontent hp hauth hsha hb hs
    subst hp
    subst hb
    unfold download_raw
    dsimp only
    rw [if_pos ⟨rfl, hauth, hsha⟩, if_pos hs]

/-- Witness for C8: with auth and a sha, a 404 primary response and a 200
blob response, the fallback is attempted. -/
theorem download_raw_fallback_iff_witness :
    (download_raw true (some "shaA") (ReqResult.resp 404 "nf") (ReqResult.resp 200 "enc")).1 =
      true :=
  (download_raw_fallback_iff true (some "shaA") (ReqResult.resp 404 "nf")
    (ReqResult.resp 200 "enc")).1.mpr ⟨⟨"nf", rfl⟩, rfl, rfl⟩
